import Mathlib

/-!
# HacktricksViewerRN — `windows/HacktricksViewerRN/MainPage.h`

The header declares two classes and nothing else:

* `winrt::HacktricksViewerRN::implementation::MainPage`, derived from
  `MainPageT<MainPage>`, with one declared member, the constructor `MainPage();`
* `winrt::HacktricksViewerRN::factory_implementation::MainPage`, derived from
  `MainPageT<MainPage, implementation::MainPage>`, with an empty body.

The header is embedded as the declarations it contains (`MainPage_h`), together
with the C++ rules needed to read them: default member access of a class key,
which members are functions and which are data, and name lookup through the
enclosing namespaces.  Only what the header text declares is modelled; members
that the compiler declares implicitly and everything that comes from the
included headers (`MainPage.g.h`, `winrt/Microsoft.ReactNative.h`) is outside.
-/

set_option linter.dupNamespace false

namespace HacktricksViewerRN

/-! ## Declarations -/

/-- A possibly qualified name, outermost component first:
`implementation::MainPage` is `["implementation", "MainPage"]`. -/
abbrev QName := List String

/-- A template-id such as `MainPageT<MainPage, implementation::MainPage>`, with
the names spelled as in the source. -/
structure TemplateId where
  name : QName
  args : List QName
deriving DecidableEq, Repr

/-- Member access. -/
inductive Access where
  | pub
  | prot
  | priv
deriving DecidableEq, Repr

/-- The class key that introduces a class definition. -/
inductive ClassKey where
  | struct
  | cls
deriving DecidableEq, Repr

/-- Access of the members that precede any access specifier: public for
`struct`, private for `class`. -/
def ClassKey.defaultAccess : ClassKey → Access
  | .struct => .pub
  | .cls => .priv

/-- A member declaration written in a class body. -/
inductive MemberDecl where
  | ctor (params : List QName)
  | dtor
  | method (name : String) (params : List QName) (ret : QName)
  | field (name : String) (type : QName)
deriving DecidableEq, Repr

/-- An item of a class body: an access specifier or a member declaration. -/
inductive BodyItem where
  | access (a : Access)
  | member (m : MemberDecl)
deriving DecidableEq, Repr

/-- A class definition: key, name, base clause and body. -/
structure ClassDecl where
  key : ClassKey
  name : String
  bases : List TemplateId
  body : List BodyItem
deriving DecidableEq, Repr

/-- A namespace definition `namespace a::b::c` with the classes defined in it. -/
structure NamespaceDecl where
  path : QName
  classes : List ClassDecl
deriving DecidableEq, Repr

/-- A header file: its include directives and its namespace definitions. -/
structure Header where
  includes : List String
  namespaces : List NamespaceDecl
deriving DecidableEq, Repr

/-- Definition of `struct MainPage : MainPageT<MainPage>` with the single
member `MainPage();` (MainPage.h, lines 7-10). -/
def implementation.MainPage : ClassDecl where
  key := .struct
  name := "MainPage"
  bases := [⟨["MainPageT"], [["MainPage"]]⟩]
  body := [.member (.ctor [])]

/-- Definition of `struct MainPage : MainPageT<MainPage, implementation::MainPage>`
with an empty body (MainPage.h, lines 15-17). -/
def factory_implementation.MainPage : ClassDecl where
  key := .struct
  name := "MainPage"
  bases := [⟨["MainPageT"], [["MainPage"], ["implementation", "MainPage"]]⟩]
  body := []

/-- The header MainPage.h. -/
def MainPage_h : Header where
  includes := ["MainPage.g.h", "winrt/Microsoft.ReactNative.h"]
  namespaces :=
    [ ⟨["winrt", "HacktricksViewerRN", "implementation"], [implementation.MainPage]⟩,
      ⟨["winrt", "HacktricksViewerRN", "factory_implementation"],
        [factory_implementation.MainPage]⟩ ]

/-- The namespace `winrt::HacktricksViewerRN` that encloses both namespaces of
the header. -/
def rootNamespace : QName := ["winrt", "HacktricksViewerRN"]

/-- Fully qualified name of the implementation type. -/
def implementationName : QName := rootNamespace ++ ["implementation", "MainPage"]

/-- Fully qualified name of the factory type. -/
def factoryName : QName := rootNamespace ++ ["factory_implementation", "MainPage"]

/-! ## Members of a class -/

/-- The member declarations of a body, each with the access in force where it
is written. -/
def membersFrom : Access → List BodyItem → List (Access × MemberDecl)
  | _, [] => []
  | _, .access a :: rest => membersFrom a rest
  | cur, .member m :: rest => (cur, m) :: membersFrom cur rest

/-- The members a class declares, with their access. -/
def ClassDecl.members (c : ClassDecl) : List (Access × MemberDecl) :=
  membersFrom c.key.defaultAccess c.body

/-- The members a class declares itself. -/
def ClassDecl.ownMembers (c : ClassDecl) : List MemberDecl :=
  c.members.map Prod.snd

/-- The public members a class declares itself. -/
def ClassDecl.publicInterface (c : ClassDecl) : List MemberDecl :=
  (c.members.filter fun am => am.1 = Access.pub).map Prod.snd

/-- Constructors, destructors and methods are member functions; fields are not. -/
def MemberDecl.isFunction : MemberDecl → Bool
  | .ctor _ => true
  | .dtor => true
  | .method _ _ _ => true
  | .field _ _ => false

/-- Recognises a constructor declaration. -/
def MemberDecl.isCtor : MemberDecl → Bool
  | .ctor _ => true
  | _ => false

/-- The member functions a class declares itself. -/
def ClassDecl.memberFunctions (c : ClassDecl) : List MemberDecl :=
  c.ownMembers.filter MemberDecl.isFunction

/-- The data members a class declares itself. -/
def ClassDecl.dataMembers (c : ClassDecl) : List MemberDecl :=
  c.ownMembers.filter fun m => !m.isFunction

/-- The constructors a class declares itself. -/
def ClassDecl.constructors (c : ClassDecl) : List MemberDecl :=
  c.ownMembers.filter MemberDecl.isCtor

/-! ## Name lookup -/

/-- Every class of a header with its fully qualified name. -/
def Header.classes (h : Header) : List (QName × ClassDecl) :=
  (h.namespaces.map fun n => n.classes.map fun c => (n.path ++ [c.name], c)).flatten

/-- The class definition with a given fully qualified name. -/
def Header.findClass (h : Header) (q : QName) : Option ClassDecl :=
  (h.classes.find? fun qc => qc.1 = q).map Prod.snd

/-- A namespace is declared when it is, or encloses, the namespace of a
namespace definition. -/
def Header.declaresNamespace (h : Header) (q : QName) : Bool :=
  q ≠ [] && h.namespaces.any fun n => n.path.take q.length = q

/-- A fully qualified name is declared when it names a namespace or a class. -/
def Header.declares (h : Header) (q : QName) : Bool :=
  h.declaresNamespace q || (h.findClass q).isSome

/-- The scopes that enclose a namespace, innermost first, the global scope
last. -/
def enclosingScopes (scope : QName) : List QName :=
  (List.range (scope.length + 1)).reverse.map fun k => scope.take k

/-- Lookup of a name used inside a namespace.  The first component is searched
in the enclosing scopes from the innermost outwards; the remaining components
are then looked up in the scope found, without going back. -/
def Header.resolve (h : Header) (scope : QName) (n : QName) : Option QName :=
  match n with
  | [] => none
  | first :: _ =>
    match (enclosingScopes scope).find? fun s => h.declares (s ++ [first]) with
    | none => none
    | some s => if h.declares (s ++ n) then some (s ++ n) else none

/-- The template arguments of the first base class, each resolved from the
namespace in which the class is defined. -/
def Header.baseArguments (h : Header) (scope : QName) (c : ClassDecl) :
    List (Option QName) :=
  match c.bases with
  | [] => []
  | b :: _ => b.args.map (h.resolve scope)

/-! ## Own state and operations of a class -/

/-- The state a class adds to its bases: one value for each data member it
declares. -/
def ClassDecl.OwnState (c : ClassDecl) (Val : Type) : Type :=
  Fin c.dataMembers.length → Val

/-- The declared member functions that can be called on an object that already
exists: all but the constructors. -/
def ClassDecl.invocable (c : ClassDecl) : List MemberDecl :=
  c.memberFunctions.filter fun m => !m.isCtor

/-- Calling a member on a constructed object.  A member the class declares as
callable changes the own state by its effect; any other member is not an
operation of the class and yields no successor state. -/
def ClassDecl.invoke (c : ClassDecl) (Val : Type)
    (effect : MemberDecl → c.OwnState Val → c.OwnState Val)
    (s : c.OwnState Val) (op : MemberDecl) : Option (c.OwnState Val) :=
  if op ∈ c.invocable then some (effect op s) else none

/-- What a class offers to its users: activation of a type, inherited from a
factory base, or a member function. -/
inductive Operation where
  | activate (impl : QName)
  | member (m : MemberDecl)
deriving DecidableEq, Repr

/-- The operations of a class: those inherited from its base followed by the
member functions it declares itself. -/
def ClassDecl.operations (c : ClassDecl) (inherited : List Operation) : List Operation :=
  inherited ++ c.memberFunctions.map Operation.member

/-- An object, identified by the fully qualified name of its class. -/
structure Object where
  type : QName
deriving DecidableEq, Repr

/-! ## Activation -/

/-- Modelled from the spec: the class template `MainPageT` of the namespace
`factory_implementation` is declared by the generated header MainPage.g.h, which
is not among the sources.  The spec describes the factory as "a separate factory
type parameterized over the main implementation type" that is the "activation
mechanism": the one operation the base offers is the activation of the
implementation type, its second template argument. -/
def factoryBase (args : List (Option QName)) : List Operation :=
  match args with
  | [_, some impl] => [Operation.activate impl]
  | _ => []

/-- A class can be default constructed when it declares a public constructor
without parameters, or declares no constructor at all. -/
def ClassDecl.defaultConstructible (c : ClassDecl) : Bool :=
  c.constructors = [] || c.publicInterface.contains (MemberDecl.ctor [])

/-- Modelled from the spec: the activation mechanism of the host is not among
the sources.  The spec says "the host windowing framework looks up this page
type by a declared type name and calls its default constructor": the factory
declared under the requested simple name is looked up, and the type its base
activates is default constructed. -/
def activate (h : Header) (root : QName) (name : String) : Option Object :=
  match h.findClass (root ++ ["factory_implementation", name]) with
  | none => none
  | some f =>
    match f.operations (factoryBase (h.baseArguments (root ++ ["factory_implementation"]) f)) with
    | [Operation.activate impl] =>
      match h.findClass impl with
      | some c => if c.defaultConstructible then some ⟨impl⟩ else none
      | none => none
    | _ => none

/-! ## Construction -/

/-- Modelled from the spec: the failure type of the platform is not among the
sources.  The spec only speaks of "platform-level construction failures"; one is
identified here by a result code. -/
structure PlatformFailure where
  hresult : Int
deriving DecidableEq, Repr

/-- Modelled from the spec: the condition of the host when a page is
constructed, either the "normal host conditions" of the spec or a failure of the
platform. -/
inductive HostCondition where
  | normal
  | failing (e : PlatformFailure)
deriving DecidableEq, Repr

/-- Modelled from the spec: the body of the constructor `MainPage::MainPage()`
is not in the header, which only declares it.  The spec says "construction is
expected to always succeed or to propagate platform-level construction
failures" and "this component neither catches nor classifies errors": the
constructor yields the page unless the platform fails, and then passes the
failure of the platform on unchanged. -/
def implementation.MainPage.MainPage (cond : HostCondition) : Except PlatformFailure Object :=
  match cond with
  | .normal => .ok ⟨implementationName⟩
  | .failing e => .error e

/-! ## Host lifecycle -/

/-- Modelled from the spec: the events of the window management of the host,
"window creation" and "window teardown"; a teardown names the activation whose
window goes away. -/
inductive HostEvent where
  | windowCreated
  | windowTornDown (activation : Nat)
deriving DecidableEq, Repr

/-- Modelled from the spec: the state of the host, which is not among the
sources: the number of window activations so far, the activation on whose behalf
each constructor call was made (latest first), and the pages of the windows that
are still open. -/
structure HostState where
  activations : Nat
  ctorCalls : List Nat
  pages : List (Nat × Object)
deriving DecidableEq, Repr

/-- The host before any window exists. -/
def HostState.init : HostState := ⟨0, [], []⟩

/-- Modelled from the spec: the window management of the host is not among the
sources.  The spec says the page has "a lifecycle fully owned by the host
platform's window-management layer (created on window creation, destroyed on
window teardown)": a window creation activates the page type by name, which
calls the constructor, and keeps the page; a teardown drops the page of that
window. -/
def hostStep (s : HostState) : HostEvent → HostState
  | .windowCreated =>
    match activate MainPage_h rootNamespace "MainPage" with
    | some page =>
      { activations := s.activations + 1
        ctorCalls := s.activations :: s.ctorCalls
        pages := (s.activations, page) :: s.pages }
    | none => { s with activations := s.activations + 1 }
  | .windowTornDown a => { s with pages := s.pages.filter fun p => p.1 ≠ a }

/-- The host after a sequence of events. -/
def hostRun (events : List HostEvent) : HostState :=
  events.foldl hostStep HostState.init

/-! ## Lemmas -/

/-- A class without data members has at most one own state. -/
theorem ownState_eq_of_no_dataMembers (c : ClassDecl) (hc : c.dataMembers = [])
    (Val : Type) (s t : c.OwnState Val) : s = t := by
  funext i
  have hlt : i.val < c.dataMembers.length := i.isLt
  have hlen : c.dataMembers.length = 0 := by simp [hc]
  omega

/-- A class without data members has exactly one own state. -/
theorem ownState_single_of_no_dataMembers (c : ClassDecl) (hc : c.dataMembers = [])
    (Val : Type) : ∃ s : c.OwnState Val, ∀ t : c.OwnState Val, t = s := by
  have hlen : c.dataMembers.length = 0 := by simp [hc]
  refine ⟨fun i => absurd i.isLt (by omega), fun t => ?_⟩
  exact ownState_eq_of_no_dataMembers c hc Val _ _

/-- A class without member functions of its own offers what it inherits. -/
theorem operations_eq_inherited (c : ClassDecl) (hc : c.memberFunctions = [])
    (inherited : List Operation) : c.operations inherited = inherited := by
  simp [ClassDecl.operations, hc]

/-- A class with nothing to call on a constructed object has no transition. -/
theorem invoke_eq_none (c : ClassDecl) (hc : c.invocable = []) (Val : Type)
    (effect : MemberDecl → c.OwnState Val → c.OwnState Val) (s : c.OwnState Val)
    (op : MemberDecl) : c.invoke Val effect s op = none := by
  simp [ClassDecl.invoke, hc]

/-- The factory resolves both template arguments of its base inside the header. -/
theorem factory_baseArguments :
    MainPage_h.baseArguments (rootNamespace ++ ["factory_implementation"])
        factory_implementation.MainPage
      = [some factoryName, some implementationName] := by
  decide

/-- Activation of the name `MainPage` gives an object of the implementation type. -/
theorem activate_MainPage :
    activate MainPage_h rootNamespace "MainPage" = some ⟨implementationName⟩ := by
  decide

/-- A window creation makes one constructor call, on behalf of the new
activation; a teardown makes none. -/
theorem hostStep_windowCreated (s : HostState) :
    hostStep s HostEvent.windowCreated =
      { activations := s.activations + 1
        ctorCalls := s.activations :: s.ctorCalls
        pages := (s.activations, ⟨implementationName⟩) :: s.pages } := by
  simp [hostStep, activate_MainPage]

/-- The number of activations grows by the window creations among the events. -/
theorem foldl_hostStep_activations (events : List HostEvent) (s : HostState) :
    (events.foldl hostStep s).activations
      = s.activations + events.count HostEvent.windowCreated := by
  induction events generalizing s with
  | nil => simp
  | cons e rest ih =>
    rw [List.foldl_cons, ih]
    cases e with
    | windowCreated =>
      rw [hostStep_windowCreated]
      simp only [List.count_cons_self]
      omega
    | windowTornDown a =>
      have hne : (HostEvent.windowTornDown a == HostEvent.windowCreated) = false := by
        simp
      simp [hostStep, List.count_cons, hne]

/-- One step of the host keeps one constructor call for every activation made
so far and none for the others. -/
theorem hostStep_oneCallEach (s : HostState) (e : HostEvent)
    (hs : ∀ a, s.ctorCalls.count a = if a < s.activations then 1 else 0) :
    ∀ a, (hostStep s e).ctorCalls.count a
      = if a < (hostStep s e).activations then 1 else 0 := by
  cases e with
  | windowCreated =>
    rw [hostStep_windowCreated]
    intro a
    have ha := hs a
    simp only [List.count_cons, ha]
    by_cases h1 : a < s.activations
    · have h2 : ¬ s.activations = a := by omega
      have h3 : a < s.activations + 1 := by omega
      simp [h1, h2, h3]
    · by_cases h2 : s.activations = a
      · have h3 : a < s.activations + 1 := by omega
        simp [h1, h2]
      · have h3 : ¬ a < s.activations + 1 := by omega
        simp [h1, h2, h3]
  | windowTornDown w =>
    intro a
    simpa [hostStep] using hs a

/-- Any sequence of events keeps one constructor call per activation. -/
theorem foldl_hostStep_oneCallEach (events : List HostEvent) (s : HostState)
    (hs : ∀ a, s.ctorCalls.count a = if a < s.activations then 1 else 0) :
    ∀ a, (events.foldl hostStep s).ctorCalls.count a
      = if a < (events.foldl hostStep s).activations then 1 else 0 := by
  induction events generalizing s with
  | nil => simpa using hs
  | cons e rest ih =>
    rw [List.foldl_cons]
    exact ih _ (hostStep_oneCallEach s e hs)

/-! ## The claims -/

/-- C1: the class `implementation::MainPage` found in MainPage.h declares one
member in all, the public constructor without parameters; it declares no other
member function and no constructor that takes parameters. -/
theorem C1_interface_is_default_constructor :
    MainPage_h.findClass implementationName = some implementation.MainPage ∧
    implementation.MainPage.publicInterface = [MemberDecl.ctor []] ∧
    implementation.MainPage.ownMembers = [MemberDecl.ctor []] ∧
    implementation.MainPage.memberFunctions = [MemberDecl.ctor []] ∧
    implementation.MainPage.constructors = [MemberDecl.ctor []] := by
  decide

/-- C2: the class `implementation::MainPage` declares no data member, so it has
exactly one own state; its member functions are its constructors, nothing can
be called on a constructed page, and so no call yields a successor state. -/
theorem C2_own_state_is_single :
    implementation.MainPage.dataMembers = [] ∧
    (∀ Val : Type, ∃ s : implementation.MainPage.OwnState Val,
      ∀ t : implementation.MainPage.OwnState Val, t = s) ∧
    implementation.MainPage.memberFunctions = implementation.MainPage.constructors ∧
    implementation.MainPage.invocable = [] ∧
    (∀ (Val : Type)
      (effect : MemberDecl → implementation.MainPage.OwnState Val →
        implementation.MainPage.OwnState Val)
      (s : implementation.MainPage.OwnState Val) (op : MemberDecl),
      implementation.MainPage.invoke Val effect s op = none) :=
  ⟨by decide,
   ownState_single_of_no_dataMembers implementation.MainPage (by decide),
   by decide,
   by decide,
   invoke_eq_none implementation.MainPage (by decide)⟩

/-- C3: the class can be default constructed; under normal host conditions the
constructor returns a page of the implementation type and no failure, and the
only failure it can return is the one of the platform, passed on unchanged. -/
theorem C3_construction_succeeds :
    implementation.MainPage.defaultConstructible = true ∧
    implementation.MainPage.MainPage HostCondition.normal
      = Except.ok ⟨implementationName⟩ ∧
    (∀ e : PlatformFailure,
      implementation.MainPage.MainPage HostCondition.normal ≠ Except.error e) ∧
    (∀ e : PlatformFailure,
      implementation.MainPage.MainPage (HostCondition.failing e) = Except.error e) := by
  refine ⟨by decide, rfl, ?_, fun e => rfl⟩
  intro e h
  simp [implementation.MainPage.MainPage] at h

/-- C4: the factory and the implementation class both have the simple name
`MainPage` and both live in a namespace directly under
`winrt::HacktricksViewerRN`; the second template argument of the base of the
factory resolves to `implementation::MainPage`; activating the name `MainPage`
gives an object of that type, and an object is the result of that activation
only if it has that type. -/
theorem C4_discoverable_by_name :
    MainPage_h.findClass factoryName = some factory_implementation.MainPage ∧
    MainPage_h.findClass implementationName = some implementation.MainPage ∧
    factory_implementation.MainPage.name = implementation.MainPage.name ∧
    factory_implementation.MainPage.name = "MainPage" ∧
    MainPage_h.namespaces.map (fun n => n.path.dropLast) = [rootNamespace, rootNamespace] ∧
    MainPage_h.baseArguments (rootNamespace ++ ["factory_implementation"])
        factory_implementation.MainPage
      = [some factoryName, some implementationName] ∧
    activate MainPage_h rootNamespace "MainPage" = some ⟨implementationName⟩ ∧
    (∀ o : Object, activate MainPage_h rootNamespace "MainPage" = some o ↔
      o.type = implementationName) := by
  refine ⟨by decide, by decide, rfl, rfl, by decide, factory_baseArguments,
    activate_MainPage, ?_⟩
  intro o
  rw [activate_MainPage]
  constructor
  · intro h
    cases h
    rfl
  · intro h
    cases o
    simp_all

/-- C5: after any sequence of host events the number of window activations is
the number of window creations, every activation made so far has exactly one
constructor call, and no constructor call belongs to anything else. -/
theorem C5_one_construction_per_activation (events : List HostEvent) :
    (hostRun events).activations = events.count HostEvent.windowCreated ∧
    ∀ a, (hostRun events).ctorCalls.count a
      = if a < (hostRun events).activations then 1 else 0 := by
  constructor
  · simp [hostRun, foldl_hostStep_activations, HostState.init]
  · exact foldl_hostStep_oneCallEach events HostState.init (fun a => by simp [HostState.init])

/-- C6: the body of the factory class is empty: it declares no member function
and no data member, it offers exactly the operations it inherits, any two of its
own states are equal, its base is `MainPageT<MainPage, implementation::MainPage>`,
whatever that base offers for the factory and `implementation::MainPage` is all
the factory offers, and with the base that activates its second argument the
only operation is the activation of `implementation::MainPage`. -/
theorem C6_factory_adds_nothing :
    factory_implementation.MainPage.body = [] ∧
    factory_implementation.MainPage.ownMembers = [] ∧
    (∀ inherited : List Operation,
      factory_implementation.MainPage.operations inherited = inherited) ∧
    (∀ (Val : Type) (s t : factory_implementation.MainPage.OwnState Val), s = t) ∧
    factory_implementation.MainPage.bases
      = [⟨["MainPageT"], [["MainPage"], ["implementation", "MainPage"]]⟩] ∧
    (∀ base : List (Option QName) → List Operation,
      factory_implementation.MainPage.operations
          (base (MainPage_h.baseArguments (rootNamespace ++ ["factory_implementation"])
            factory_implementation.MainPage))
        = base [some factoryName, some implementationName]) ∧
    factory_implementation.MainPage.operations
        (factoryBase (MainPage_h.baseArguments (rootNamespace ++ ["factory_implementation"])
          factory_implementation.MainPage))
      = [Operation.activate implementationName] :=
  ⟨rfl, by decide,
   operations_eq_inherited factory_implementation.MainPage (by decide),
   ownState_eq_of_no_dataMembers factory_implementation.MainPage (by decide),
   rfl,
   fun base => by
     rw [factory_baseArguments]
     exact operations_eq_inherited factory_implementation.MainPage (by decide) _,
   by decide⟩

end HacktricksViewerRN
